import Mathlib

/-!
Verification development for the `AbbyyPdfToDocx` tool (two revisions of
`abbyy_pdf_to_docx.js`).  The JavaScript is shallowly embedded: every network
call, registry lookup and clock read is an input supplied by an environment
record, the byte contents of documents are abstracted to the locator they were
fetched from, and the `while (true)` poll loop is driven by the finite list of
service responses the environment provides (running past that list yields a
distinguished `hung` outcome).  Sleep delays are modelled exactly as rationals
(all values reached by `min (d * 1.5) 7000` from `1500` are dyadic, hence the
JavaScript doubles are exact).  JavaScript truthiness of optional string
fields (`undefined` and `""` are falsy) is modelled by `sTruthy`.
-/

namespace AbbyyTool

/-- Truthiness of a JS string-valued field: `undefined`/absent and `""` are
falsy, every other string is truthy. -/
def sTruthy : Option String → Bool
  | none => false
  | some s => s != ""

/-- Arguments of one tool invocation after JSON decoding: the fields the two
revisions of `_call` read from `payload`.  `none` models an absent
(`undefined`) field. -/
structure Payload where
  base64 : Option String := none
  fileUrl : Option String := none
  filePath : Option String := none
  file_id : Option String := none
  filename : Option String := none
  language : Option String := none
  timeoutMs : Option Nat := none
deriving DecidableEq, Repr

/-- Outcome category of `JSON.parse` on a string input: a JS object (or
array), the literal `null`, a primitive (number, boolean, string — `typeof`
not `"object"`), or a parse failure (exception). -/
inductive ParseOutcome where
  | objVal (p : Payload)
  | nullVal
  | primVal
  | failure
deriving DecidableEq, Repr

/-- Raw argument of `_call` as the host may deliver it: a string together
with its `JSON.parse` outcome, a structured object, `null`/`undefined`, or a
non-string non-object primitive. -/
inductive ToolInput where
  | strInput (s : String) (pr : ParseOutcome)
  | objInput (p : Payload)
  | nullInput
  | otherInput
deriving DecidableEq, Repr

/-- Normalization step of `_call` (identical in both revisions): a string is
`JSON.parse`d, falling back to `\x7b filename: input \x7d` on a parse
exception; then any `null` or non-object payload is replaced by the empty
object. -/
def normalize : ToolInput → Payload
  | .strInput _ (.objVal p) => p
  | .strInput _ .nullVal => {}
  | .strInput _ .primVal => {}
  | .strInput s .failure => { filename := some s }
  | .objInput p => p
  | .nullInput => {}
  | .otherInput => {}

/-- Record of the host file registry (`~/models/File`), as read by the tool:
owner, mime type, storage path, display name, last-update timestamp. -/
structure FileRecord where
  user : String := ""
  type : String := ""
  filepath : Option String := none
  filename : Option String := none
  updatedAt : Nat := 0
deriving DecidableEq, Repr

/-- Model of the JavaScript `String.prototype.endsWith` used by the tool:
`s` ends with `suffix` when the character sequence of `suffix` is a suffix
of that of `s`. -/
def jsEndsWith (s suffix : String) : Bool := suffix.data.isSuffixOf s.data

/-- Output filename validation, identical in both revisions:
`payload.filename && payload.filename.endsWith('.docx') ? payload.filename :
'converted.docx'`. -/
def outFilename (fn : Option String) : String :=
  match fn with
  | some s => if s != "" && jsEndsWith s ".docx" then s else "converted.docx"
  | none => "converted.docx"

/-- Observable side effects of one invocation, in order: the `findFileById`
lookup, the `getFiles` registry query, fetching the source bytes
(base64 decode / HTTP GET / file read), the submission POST, each sleep
(with its delay in ms) and status GET of the poll loop, and the final result
download (first revision only). -/
inductive Event where
  | lookupFileById
  | registryQuery
  | fetchBytes
  | submitJob
  | pollSleep (d : ℚ)
  | pollQuery
  | downloadResult
deriving DecidableEq, Repr

/-- Successful result of `_call`: the validated output filename and the
result locator (the `resultUrl` whose bytes the first revision downloads and
returns base64-encoded, resp. the `resultUrls[0]` the second revision returns
directly). -/
structure CallOutput where
  filename : String := ""
  locator : String := ""
deriving DecidableEq, Repr

/-- Error kinds a `_call` invocation can raise. `typeError` is the JS
`TypeError` the second revision raises reading `task.resultUrls[0]` when
`resultUrls` is absent. -/
inductive CallErr where
  | configError
  | inputError
  | noBytes
  | malformed
  | processingFailed
  | timeout
  | typeError
deriving DecidableEq, Repr

/-- Result of one `_call` invocation; `hung` means the loop ran past the
finite list of service responses the environment models (still polling). -/
inductive CallResult where
  | ok (out : CallOutput)
  | err (e : CallErr)
  | hung
deriving DecidableEq, Repr

/-- Backoff update of both revisions: `delay = Math.min(delay * 1.5, 7000)`
(written with an explicit conditional so that concrete runs evaluate inside
the kernel). -/
def nextDelay (d : ℚ) : ℚ := if d * (3 / 2) ≤ 7000 then d * (3 / 2) else 7000

namespace RevA

/-- Task representation parsed from the XML response of the first revision:
`response.task` with attributes `Id`, `Status`, `resultUrl`. -/
structure Task where
  Id : Option String := none
  Status : Option String := none
  resultUrl : Option String := none
deriving DecidableEq, Repr

/-- The function `parseTask` of the first revision: throws `Malformed ABBYY
response` unless `obj?.response?.task` exists and has a truthy `Id`. -/
def parseTask : Option Task → Except Unit Task
  | none => .error ()
  | some t => if sTruthy t.Id then .ok t else .error ()

/-- Source of the PDF bytes chosen by `resolvePdfBytes` (contents are
abstracted to the locator). -/
inductive ByteSource where
  | fromBase64 (b : String)
  | fromUrl (u : String)
  | fromPath (p : String)
deriving DecidableEq, Repr

/-- The function `resolvePdfBytes` of the first revision: base64, then
`fileUrl`, then `filePath`; throws if none is truthy. -/
def resolvePdfBytes (p : Payload) : Except Unit ByteSource :=
  if sTruthy p.base64 then .ok (.fromBase64 (p.base64.getD ""))
  else if sTruthy p.fileUrl then .ok (.fromUrl (p.fileUrl.getD ""))
  else if sTruthy p.filePath then .ok (.fromPath (p.filePath.getD ""))
  else .error ()

/-- Environment of one first-revision invocation: credentials, caller
identity, the responses of the host collaborators (`findFileById`,
`getFiles`) and of the ABBYY service (submission response, then for each poll
iteration the elapsed milliseconds at its timeout check paired with the
response of its status query).  `none` for a collaborator models both a null
result and a thrown-and-caught error. -/
structure Env where
  appId : Option String := none
  appPwd : Option String := none
  userId : Option String := none
  fileById : Option FileRecord := none
  regFiles : Option (List FileRecord) := none
  submitResp : Option Task := none
  steps : List (Nat × Option Task) := []
deriving Repr

/-- The `file_id` fallback of the first revision: when `file_id` is truthy
and no other source is, `findFileById` is consulted; a record with a truthy
`filepath` supplies `fileUrl` and (when `filename` is falsy) `filename`. -/
def fileIdFallback (env : Env) (p : Payload) : Payload × List Event :=
  if sTruthy p.file_id && !sTruthy p.fileUrl && !sTruthy p.filePath && !sTruthy p.base64 then
    match env.fileById with
    | some f =>
      if sTruthy f.filepath then
        ({ p with fileUrl := f.filepath,
                  filename := if sTruthy p.filename then p.filename else f.filename },
         [.lookupFileById])
      else (p, [.lookupFileById])
    | none => (p, [.lookupFileById])
  else (p, [])

/-- The registry fallback of the first revision: when no source is truthy and
a caller identity is known, `getFiles(filter, \x7b updatedAt: -1 \x7d)` is
queried and the first returned record with a truthy `filepath` supplies
`fileUrl` and (when `filename` is falsy) `filename`. -/
def registryFallback (env : Env) (p : Payload) : Payload × List Event :=
  if !(sTruthy p.base64 || sTruthy p.fileUrl || sTruthy p.filePath) && sTruthy env.userId then
    match env.regFiles with
    | some files =>
      match files.head? with
      | some latest =>
        if sTruthy latest.filepath then
          ({ p with fileUrl := latest.filepath,
                    filename := if sTruthy p.filename then p.filename else latest.filename },
           [.registryQuery])
        else (p, [.registryQuery])
      | none => (p, [.registryQuery])
    | none => (p, [.registryQuery])
  else (p, [])

/-- Normalization followed by both fallbacks: the payload `_call` validates
and submits, together with the trace of collaborator calls. -/
def resolve (env : Env) (input : ToolInput) : Payload × List Event :=
  let r1 := fileIdFallback env (normalize input)
  let r2 := registryFallback env r1.1
  (r2.1, r1.2 ++ r2.2)

/-- Timeout budget of the first revision: `payload.timeoutMs || 6 * 60 *
1000` (a falsy — absent or zero — field selects the 6-minute default). -/
def timeoutBudget (p : Payload) : Nat :=
  match p.timeoutMs with
  | some n => if n ≠ 0 then n else 360000
  | none => 360000

/-- Exit of the first-revision poll loop: `ok t` breaks on task `t`
(Completed with truthy `resultUrl`); the rest are the thrown errors, and
`hung` means the modelled responses ran out with the loop still going. -/
inductive PollOut where
  | ok (t : Task)
  | failed
  | timeout
  | malformed
  | hung
deriving DecidableEq, Repr

/-- The poll loop of the first revision, lines 158-166: break on Completed
with truthy `resultUrl`; throw on `ProcessingFailed`; throw once elapsed time
exceeds the budget; otherwise sleep, re-query, re-parse, and grow the delay
by `nextDelay`. -/
def poll (timeoutMs : Nat) : Task → ℚ → List (Nat × Option Task) → PollOut × List Event
  | t, delay, steps =>
    if t.Status = some "Completed" ∧ sTruthy t.resultUrl then (.ok t, [])
    else if t.Status = some "ProcessingFailed" then (.failed, [])
    else
      match steps with
      | [] => (.hung, [])
      | (elapsed, resp) :: rest =>
        if timeoutMs < elapsed then (.timeout, [])
        else
          match parseTask resp with
          | .error _ => (.malformed, [.pollSleep delay, .pollQuery])
          | .ok t2 =>
            ((poll timeoutMs t2 (nextDelay delay) rest).1,
             .pollSleep delay :: .pollQuery :: (poll timeoutMs t2 (nextDelay delay) rest).2)

/-- Submission and poll phase of the first revision `_call`: parse the
submission response, run the poll loop from delay 1500, and on success
download the result and package filename, mime and base64 bytes (abstracted
here to the locator they came from). -/
def submitAndPoll (env : Env) (p : Payload) : CallResult × List Event :=
  match parseTask env.submitResp with
  | .error _ => (.err .malformed, [.submitJob])
  | .ok t =>
    match poll (timeoutBudget p) t 1500 env.steps with
    | (.ok tEnd, evs) =>
      (.ok { filename := outFilename p.filename, locator := tEnd.resultUrl.getD "" },
       .submitJob :: evs ++ [.downloadResult])
    | (.failed, evs) => (.err .processingFailed, .submitJob :: evs)
    | (.timeout, evs) => (.err .timeout, .submitJob :: evs)
    | (.malformed, evs) => (.err .malformed, .submitJob :: evs)
    | (.hung, evs) => (.hung, .submitJob :: evs)

/-- The `_call` method of the first revision: credential check, payload
normalization, `file_id` and registry fallbacks, source validation, byte
resolution, then submission and polling. -/
def call (env : Env) (input : ToolInput) : CallResult × List Event :=
  if !(sTruthy env.appId && sTruthy env.appPwd) then (.err .configError, [])
  else
    match resolve env input with
    | (p, evs) =>
      if !(sTruthy p.base64 || sTruthy p.fileUrl || sTruthy p.filePath) then
        (.err .inputError, evs)
      else
        match resolvePdfBytes p with
        | .error _ => (.err .noBytes, evs)
        | .ok _ =>
          match submitAndPoll env p with
          | (r, evs2) => (r, evs ++ [.fetchBytes] ++ evs2)

end RevA

namespace RevB

/-- Task representation of the second revision (JSON API v2): fields
`taskId`, `status`, `resultUrls`. -/
structure Task where
  taskId : Option String := none
  status : Option String := none
  resultUrls : Option (List String) := none
deriving DecidableEq, Repr

/-- The function `parseTask` of the second revision: throws `Malformed ABBYY
response` unless the JSON value exists and has a truthy `taskId`. -/
def parseTask : Option Task → Except Unit Task
  | none => .error ()
  | some t => if sTruthy t.taskId then .ok t else .error ()

/-- Source of the PDF bytes chosen by the second revision `resolvePdfBytes`:
base64 or `fileUrl` only (the `filePath` branch was removed). -/
inductive ByteSource where
  | fromBase64 (b : String)
  | fromUrl (u : String)
deriving DecidableEq, Repr

/-- The function `resolvePdfBytes` of the second revision: base64, then
`fileUrl`; throws if neither is truthy. -/
def resolvePdfBytes (p : Payload) : Except Unit ByteSource :=
  if sTruthy p.base64 then .ok (.fromBase64 (p.base64.getD ""))
  else if sTruthy p.fileUrl then .ok (.fromUrl (p.fileUrl.getD ""))
  else .error ()

/-- Environment of one second-revision invocation.  `freshUrl` is the result
of `getFreshSignedURL` (`none` models every null-returning path, including
all its internal failures); `steps` pairs, for each poll iteration, the
elapsed milliseconds at its timeout check with the raw JSON of its status
query — the second revision does not re-validate poll responses. -/
structure Env where
  appId : Option String := none
  appPwd : Option String := none
  userId : Option String := none
  regFiles : Option (List FileRecord) := none
  freshUrl : Option String := none
  submitResp : Option Task := none
  steps : List (Nat × Task) := []
deriving Repr

/-- The registry fallback of the second revision: when neither `base64` nor
`fileUrl` is truthy and a caller identity is known, `getFiles` is queried;
the first record with a truthy `filepath` supplies `fileUrl` — preferring a
freshly signed URL (`freshUrl ?? latest.filepath`, a nullish-coalescing
choice) — and, when `filename` is falsy, `filename`. -/
def registryFallback (env : Env) (p : Payload) : Payload × List Event :=
  if !sTruthy p.base64 && !sTruthy p.fileUrl && sTruthy env.userId then
    match env.regFiles with
    | some files =>
      match files.head? with
      | some latest =>
        if sTruthy latest.filepath then
          ({ p with fileUrl := (match env.freshUrl with
                                | some u => some u
                                | none => latest.filepath),
                    filename := if sTruthy p.filename then p.filename else latest.filename },
           [.registryQuery])
        else (p, [.registryQuery])
      | none => (p, [.registryQuery])
    | none => (p, [.registryQuery])
  else (p, [])

/-- Normalization followed by the registry fallback of the second
revision. -/
def resolve (env : Env) (input : ToolInput) : Payload × List Event :=
  let r := registryFallback env (normalize input)
  (r.1, r.2)

/-- Timeout budget of the second revision: the constant `60 * 60 * 1000`
(one hour); `payload.timeoutMs` is not consulted. -/
def timeoutBudget : Nat := 3600000

/-- Outcome of evaluating the break condition `task.status === 'Completed'
&& task.resultUrls[0]` of the second revision: `exit` breaks, `typeErr` is
the TypeError reading `[0]` of an absent `resultUrls`, `keepGoing` falls
through to the remaining checks. -/
inductive BreakCheck where
  | exit
  | typeErr
  | keepGoing
deriving DecidableEq, Repr

/-- Break condition of the second-revision poll loop. -/
def checkCompleted (t : Task) : BreakCheck :=
  if t.status = some "Completed" then
    match t.resultUrls with
    | none => .typeErr
    | some urls => if sTruthy urls.head? then .exit else .keepGoing
  else .keepGoing

/-- Exit of the second-revision poll loop. -/
inductive PollOut where
  | ok (t : Task)
  | typeErr
  | failed
  | timeout
  | hung
deriving DecidableEq, Repr

/-- The poll loop of the second revision, lines 187-195: break on Completed
with a truthy first result URL (TypeError when `resultUrls` is absent);
throw on `ProcessingFailed`; throw once elapsed time exceeds the budget;
otherwise sleep, re-query — assigning the raw JSON to `task` without
`parseTask` — and grow the delay by `nextDelay`. -/
def poll (timeoutMs : Nat) : Task → ℚ → List (Nat × Task) → PollOut × List Event
  | t, delay, steps =>
    if checkCompleted t = .exit then (.ok t, [])
    else if checkCompleted t = .typeErr then (.typeErr, [])
    else if t.status = some "ProcessingFailed" then (.failed, [])
    else
      match steps with
      | [] => (.hung, [])
      | (elapsed, resp) :: rest =>
        if timeoutMs < elapsed then (.timeout, [])
        else
          ((poll timeoutMs resp (nextDelay delay) rest).1,
           .pollSleep delay :: .pollQuery :: (poll timeoutMs resp (nextDelay delay) rest).2)

/-- Submission and poll phase of the second revision `_call`: parse the
submission response, run the poll loop from delay 1500, and on success
return filename and `task.resultUrls[0]` directly (no download). -/
def submitAndPoll (env : Env) (p : Payload) : CallResult × List Event :=
  match parseTask env.submitResp with
  | .error _ => (.err .malformed, [.submitJob])
  | .ok t =>
    match poll timeoutBudget t 1500 env.steps with
    | (.ok tEnd, evs) =>
      (.ok { filename := outFilename p.filename,
             locator := ((tEnd.resultUrls.getD []).head?).getD "" },
       .submitJob :: evs)
    | (.typeErr, evs) => (.err .typeError, .submitJob :: evs)
    | (.failed, evs) => (.err .processingFailed, .submitJob :: evs)
    | (.timeout, evs) => (.err .timeout, .submitJob :: evs)
    | (.hung, evs) => (.hung, .submitJob :: evs)

/-- The `_call` method of the second revision: credential check, payload
normalization, registry fallback with fresh signed URL, source validation,
byte resolution, then submission and polling. -/
def call (env : Env) (input : ToolInput) : CallResult × List Event :=
  if !(sTruthy env.appId && sTruthy env.appPwd) then (.err .configError, [])
  else
    match resolve env input with
    | (p, evs) =>
      if !(sTruthy p.base64 || sTruthy p.fileUrl) then
        (.err .inputError, evs)
      else
        match resolvePdfBytes p with
        | .error _ => (.err .noBytes, evs)
        | .ok _ =>
          match submitAndPoll env p with
          | (r, evs2) => (r, evs ++ [.fetchBytes] ++ evs2)

end RevB

/-- Ordering requested by both revisions from the registry (`updatedAt: -1`):
record `a` comes no later than record `b` when `a` was updated no earlier. -/
def laterFile (a b : FileRecord) : Prop := b.updatedAt ≤ a.updatedAt

instance : DecidableRel laterFile := fun a b => Nat.decLe b.updatedAt a.updatedAt

instance : IsTotal FileRecord laterFile := ⟨fun a b => Nat.le_total b.updatedAt a.updatedAt⟩

instance : IsTrans FileRecord laterFile := ⟨fun _ _ _ hab hbc => le_trans hbc hab⟩

/-- Modelled from the spec: the host registry function `getFiles` (from
`~/models/File`, not part of this repository) is described as returning the
file records matching the filter sorted by the requested key; the tool always
requests the sort `updatedAt: -1`, so the result is modelled as the matching
records in descending `updatedAt` order.  The filter itself is abstracted as
a Boolean predicate. -/
def getFiles (registry : List FileRecord) (flt : FileRecord → Bool) : List FileRecord :=
  (registry.filter flt).insertionSort laterFile

/-- Delays slept during a poll run, read off the event trace. -/
def sleptDelays : List Event → List ℚ
  | [] => []
  | .pollSleep d :: evs => d :: sleptDelays evs
  | _ :: evs => sleptDelays evs

/-- Number of status queries in an event trace. -/
def queryCount : List Event → Nat
  | [] => 0
  | .pollQuery :: evs => queryCount evs + 1
  | _ :: evs => queryCount evs

/-- Chain of backoff delays of length `n` starting from `d`: each successive
delay is `nextDelay` of the previous one. -/
def delaySeq : ℚ → Nat → List ℚ
  | _, 0 => []
  | d, n + 1 => d :: delaySeq (nextDelay d) n

/-- Predicate: task `t` triggers no exit of the first-revision poll loop
(neither the Completed-with-result break nor the `ProcessingFailed` throw). -/
def RevA.nonterminal (t : RevA.Task) : Prop :=
  ¬(t.Status = some "Completed" ∧ sTruthy t.resultUrl = true) ∧
    t.Status ≠ some "ProcessingFailed"

/-- Predicate: task `t` triggers no exit of the second-revision poll loop
(the break condition falls through and the status is not
`ProcessingFailed`). -/
def RevB.nonterminal (t : RevB.Task) : Prop :=
  RevB.checkCompleted t = .keepGoing ∧ t.status ≠ some "ProcessingFailed"

/-- A `ProcessingFailed` task makes the first-revision poll loop throw at
once, with no sleep and no further status query, whatever responses and
times remain. -/
theorem pollA_of_failed (tm : Nat) (t : RevA.Task) (d : ℚ)
    (steps : List (Nat × Option RevA.Task)) (h : t.Status = some "ProcessingFailed") :
    RevA.poll tm t d steps = (.failed, []) := by
  simp [RevA.poll.eq_def, h]

/-- A `ProcessingFailed` task makes the second-revision poll loop throw at
once, with no sleep and no further status query. -/
theorem pollB_of_failed (tm : Nat) (t : RevB.Task) (d : ℚ)
    (steps : List (Nat × RevB.Task)) (h : t.status = some "ProcessingFailed") :
    RevB.poll tm t d steps = (.failed, []) := by
  simp [RevB.poll.eq_def, RevB.checkCompleted, h]

/-- The first-revision poll loop exits successfully only on a task whose
status is Completed with a truthy `resultUrl`. -/
theorem pollA_ok_completed :
    ∀ (steps : List (Nat × Option RevA.Task)) (tm : Nat) (t : RevA.Task) (d : ℚ)
      (tEnd : RevA.Task), (RevA.poll tm t d steps).1 = .ok tEnd →
      tEnd.Status = some "Completed" ∧ sTruthy tEnd.resultUrl = true := by
  intro steps
  induction steps with
  | nil =>
    intro tm t d tEnd h
    simp only [RevA.poll] at h
    split at h
    · rename_i h1
      simp only at h
      cases h
      exact h1
    · split at h <;> simp at h
  | cons s rest ih =>
    intro tm t d tEnd h
    simp only [RevA.poll] at h
    split at h
    · rename_i h1
      simp only at h
      cases h
      exact h1
    · split at h
      · simp at h
      · split at h
        · simp at h
        · split at h
          · simp at h
          · rename_i t2 _
            simp only at h
            exact ih tm t2 (nextDelay d) tEnd h

/-- A task on which the second-revision break condition fires has status
Completed and a truthy first result URL. -/
theorem RevB.checkCompleted_exit (t : RevB.Task) (h : RevB.checkCompleted t = .exit) :
    t.status = some "Completed" ∧
      ∃ urls, t.resultUrls = some urls ∧ sTruthy urls.head? = true := by
  unfold RevB.checkCompleted at h
  split at h
  · rename_i hst
    refine ⟨hst, ?_⟩
    split at h
    · simp at h
    · rename_i urls hurls
      split at h
      · rename_i hurl
        exact ⟨urls, hurls, hurl⟩
      · simp at h
  · simp at h

/-- The second-revision poll loop exits successfully only on a task whose
status is Completed with a truthy first result URL. -/
theorem pollB_ok_completed :
    ∀ (steps : List (Nat × RevB.Task)) (tm : Nat) (t : RevB.Task) (d : ℚ)
      (tEnd : RevB.Task), (RevB.poll tm t d steps).1 = .ok tEnd →
      tEnd.status = some "Completed" ∧
        ∃ urls, tEnd.resultUrls = some urls ∧ sTruthy urls.head? = true := by
  intro steps
  induction steps with
  | nil =>
    intro tm t d tEnd h
    simp only [RevB.poll] at h
    split at h
    · rename_i h1
      simp only at h
      cases h
      exact RevB.checkCompleted_exit _ h1
    · split at h
      · simp at h
      · split at h <;> simp at h
  | cons s rest ih =>
    intro tm t d tEnd h
    simp only [RevB.poll] at h
    split at h
    · rename_i h1
      simp only at h
      cases h
      exact RevB.checkCompleted_exit _ h1
    · split at h
      · simp at h
      · split at h
        · simp at h
        · split at h
          · simp at h
          · simp only at h
            exact ih tm s.2 (nextDelay d) tEnd h

/-- The backoff delay never exceeds the 7000 ms ceiling after an update. -/
theorem nextDelay_le_ceiling (d : ℚ) : nextDelay d ≤ 7000 := by
  unfold nextDelay
  split
  · assumption
  · exact le_refl _

/-- Below the ceiling, an update never decreases the delay. -/
theorem le_nextDelay (d : ℚ) (h0 : 0 ≤ d) (h7 : d ≤ 7000) : d ≤ nextDelay d := by
  unfold nextDelay
  split
  · linarith
  · exact h7

/-- The update keeps the delay nonnegative. -/
theorem nextDelay_nonneg (d : ℚ) (h0 : 0 ≤ d) : 0 ≤ nextDelay d := by
  unfold nextDelay
  split
  · linarith
  · norm_num

/-- Consecutive delays of a backoff chain are related by `nextDelay`. -/
theorem delaySeq_chain_growth :
    ∀ (n : Nat) (d : ℚ), List.Chain' (fun a b => b = nextDelay a) (delaySeq d n) := by
  intro n
  induction n with
  | zero => intro d; simp [delaySeq]
  | succ m ih =>
    intro d
    rw [delaySeq]
    refine List.chain'_cons'.mpr ⟨?_, ih (nextDelay d)⟩
    intro y hy
    cases m with
    | zero => simp [delaySeq] at hy
    | succ k =>
      rw [delaySeq] at hy
      simp at hy
      exact hy.symm

/-- A backoff chain started inside `[0, 7000]` is non-decreasing. -/
theorem delaySeq_chain_le :
    ∀ (n : Nat) (d : ℚ), 0 ≤ d → d ≤ 7000 → List.Chain' (· ≤ ·) (delaySeq d n) := by
  intro n
  induction n with
  | zero => intro d _ _; simp [delaySeq]
  | succ m ih =>
    intro d h0 h7
    rw [delaySeq]
    refine List.chain'_cons'.mpr
      ⟨?_, ih (nextDelay d) (nextDelay_nonneg d h0) (nextDelay_le_ceiling d)⟩
    intro y hy
    cases m with
    | zero => simp [delaySeq] at hy
    | succ k =>
      rw [delaySeq] at hy
      simp at hy
      rw [← hy]
      exact le_nextDelay d h0 h7

/-- A backoff chain started at or below the ceiling never exceeds it. -/
theorem delaySeq_le_ceiling :
    ∀ (n : Nat) (d : ℚ), d ≤ 7000 → ∀ x ∈ delaySeq d n, x ≤ 7000 := by
  intro n
  induction n with
  | zero => intro d _ x hx; simp [delaySeq] at hx
  | succ m ih =>
    intro d h7 x hx
    rw [delaySeq] at hx
    rcases List.mem_cons.mp hx with h | h
    · rw [h]; exact h7
    · exact ih (nextDelay d) (nextDelay_le_ceiling d) x h

/-- Delays slept by a first-revision poll run form a backoff chain from the
starting delay. -/
theorem pollA_sleeps :
    ∀ (steps : List (Nat × Option RevA.Task)) (tm : Nat) (t : RevA.Task) (d : ℚ),
      ∃ n, sleptDelays (RevA.poll tm t d steps).2 = delaySeq d n := by
  intro steps
  induction steps with
  | nil =>
    intro tm t d
    simp only [RevA.poll]
    split
    · exact ⟨0, rfl⟩
    · split
      · exact ⟨0, rfl⟩
      · exact ⟨0, rfl⟩
  | cons s rest ih =>
    intro tm t d
    obtain ⟨e, resp⟩ := s
    simp only [RevA.poll]
    split
    · exact ⟨0, rfl⟩
    · split
      · exact ⟨0, rfl⟩
      · split
        · exact ⟨0, rfl⟩
        · split
          · exact ⟨1, rfl⟩
          · obtain ⟨n, hn⟩ := ih tm _ (nextDelay d)
            refine ⟨n + 1, ?_⟩
            simp only [sleptDelays, delaySeq]
            rw [← hn]

/-- Delays slept by a second-revision poll run form a backoff chain from the
starting delay. -/
theorem pollB_sleeps :
    ∀ (steps : List (Nat × RevB.Task)) (tm : Nat) (t : RevB.Task) (d : ℚ),
      ∃ n, sleptDelays (RevB.poll tm t d steps).2 = delaySeq d n := by
  intro steps
  induction steps with
  | nil =>
    intro tm t d
    simp only [RevB.poll]
    split
    · exact ⟨0, rfl⟩
    · split
      · exact ⟨0, rfl⟩
      · split
        · exact ⟨0, rfl⟩
        · exact ⟨0, rfl⟩
  | cons s rest ih =>
    intro tm t d
    obtain ⟨e, resp⟩ := s
    simp only [RevB.poll]
    split
    · exact ⟨0, rfl⟩
    · split
      · exact ⟨0, rfl⟩
      · split
        · exact ⟨0, rfl⟩
        · split
          · exact ⟨0, rfl⟩
          · obtain ⟨n, hn⟩ := ih tm resp (nextDelay d)
            refine ⟨n + 1, ?_⟩
            simp only [sleptDelays, delaySeq]
            rw [← hn]

/-- With every observed status non-terminal, a first-revision poll run whose
times include one beyond the budget exits with the timeout error. -/
theorem pollA_timeout :
    ∀ (steps : List (Nat × Option RevA.Task)) (tm : Nat) (t : RevA.Task) (d : ℚ),
      RevA.nonterminal t →
      (∀ p ∈ steps, ∃ t2, RevA.parseTask p.2 = .ok t2 ∧ RevA.nonterminal t2) →
      (∃ p ∈ steps, tm < p.1) →
      (RevA.poll tm t d steps).1 = .timeout := by
  intro steps
  induction steps with
  | nil =>
    intro tm t d _ _ hex
    simp at hex
  | cons s rest ih =>
    intro tm t d hnt hres hex
    obtain ⟨e, resp⟩ := s
    simp only [RevA.poll]
    rw [if_neg hnt.1, if_neg hnt.2]
    by_cases hte : tm < e
    · rw [if_pos hte]
    · rw [if_neg hte]
      obtain ⟨t2, hpt, hnt2⟩ := hres (e, resp) (by simp)
      rw [hpt]
      simp only
      refine ih tm t2 (nextDelay d) hnt2 (fun p hp => hres p (by simp [hp])) ?_
      obtain ⟨p, hp, hpe⟩ := hex
      rcases List.mem_cons.mp hp with h1 | h2
      · rw [h1] at hpe
        exact absurd hpe hte
      · exact ⟨p, h2, hpe⟩

/-- With every observed status non-terminal, a second-revision poll run whose
times include one beyond the budget exits with the timeout error. -/
theorem pollB_timeout :
    ∀ (steps : List (Nat × RevB.Task)) (tm : Nat) (t : RevB.Task) (d : ℚ),
      RevB.nonterminal t →
      (∀ p ∈ steps, RevB.nonterminal p.2) →
      (∃ p ∈ steps, tm < p.1) →
      (RevB.poll tm t d steps).1 = .timeout := by
  intro steps
  induction steps with
  | nil =>
    intro tm t d _ _ hex
    simp at hex
  | cons s rest ih =>
    intro tm t d hnt hres hex
    obtain ⟨e, resp⟩ := s
    simp only [RevB.poll]
    rw [if_neg (by rw [hnt.1]; simp), if_neg (by rw [hnt.1]; simp), if_neg hnt.2]
    by_cases hte : tm < e
    · rw [if_pos hte]
    · rw [if_neg hte]
      simp only
      refine ih tm resp (nextDelay d) (hres (e, resp) (by simp))
        (fun p hp => hres p (by simp [hp])) ?_
      obtain ⟨p, hp, hpe⟩ := hex
      rcases List.mem_cons.mp hp with h1 | h2
      · rw [h1] at hpe
        exact absurd hpe hte
      · exact ⟨p, h2, hpe⟩

/-- The `file_id` fallback emits at most the `findFileById` lookup. -/
theorem fileIdFallbackA_events (env : RevA.Env) (p : Payload) :
    ∀ e ∈ (RevA.fileIdFallback env p).2, e = Event.lookupFileById := by
  unfold RevA.fileIdFallback
  split
  · split
    · split <;> simp
    · simp
  · simp

/-- The first-revision registry fallback emits at most the registry query. -/
theorem registryFallbackA_events (env : RevA.Env) (p : Payload) :
    ∀ e ∈ (RevA.registryFallback env p).2, e = Event.registryQuery := by
  unfold RevA.registryFallback
  split
  · split
    · split
      · split <;> simp
      · simp
    · simp
  · simp

/-- The second-revision registry fallback emits at most the registry query. -/
theorem registryFallbackB_events (env : RevB.Env) (p : Payload) :
    ∀ e ∈ (RevB.registryFallback env p).2, e = Event.registryQuery := by
  unfold RevB.registryFallback
  split
  · split
    · split
      · split <;> simp
      · simp
    · simp
  · simp

/-- Resolution emits only collaborator lookups: never a submission, a status
query or a sleep. -/
theorem resolveA_events (env : RevA.Env) (input : ToolInput) :
    ∀ e ∈ (RevA.resolve env input).2,
      e = Event.lookupFileById ∨ e = Event.registryQuery := by
  intro e he
  unfold RevA.resolve at he
  simp only [List.mem_append] at he
  rcases he with h | h
  · exact Or.inl (fileIdFallbackA_events env _ e h)
  · exact Or.inr (registryFallbackA_events env _ e h)

/-- Second-revision resolution emits only the registry query. -/
theorem resolveB_events (env : RevB.Env) (input : ToolInput) :
    ∀ e ∈ (RevB.resolve env input).2, e = Event.registryQuery := by
  intro e he
  unfold RevB.resolve at he
  exact registryFallbackB_events env _ e he

/-- A successful first-revision submission-and-poll phase carries the
validated filename of the submitted payload. -/
theorem submitAndPollA_ok_filename (env : RevA.Env) (p : Payload) (out : CallOutput) :
    (RevA.submitAndPoll env p).1 = .ok out → out.filename = outFilename p.filename := by
  intro h
  unfold RevA.submitAndPoll at h
  split at h
  · simp at h
  · split at h
    · simp only at h
      cases h
      rfl
    · simp at h
    · simp at h
    · simp at h
    · simp at h

/-- A successful second-revision submission-and-poll phase carries the
validated filename of the submitted payload. -/
theorem submitAndPollB_ok_filename (env : RevB.Env) (p : Payload) (out : CallOutput) :
    (RevB.submitAndPoll env p).1 = .ok out → out.filename = outFilename p.filename := by
  intro h
  unfold RevB.submitAndPoll at h
  split at h
  · simp at h
  · split at h
    · simp only at h
      cases h
      rfl
    · simp at h
    · simp at h
    · simp at h
    · simp at h

/-- A first-revision invocation result is a configuration error, an input
error, a byte-resolution error, or the result of the submission-and-poll
phase on the resolved payload. -/
theorem callA_cases (env : RevA.Env) (input : ToolInput) :
    (RevA.call env input).1 = .err .configError ∨
    (RevA.call env input).1 = .err .inputError ∨
    (RevA.call env input).1 = .err .noBytes ∨
    (RevA.call env input).1 = (RevA.submitAndPoll env (RevA.resolve env input).1).1 := by
  unfold RevA.call
  split
  · exact Or.inl rfl
  · split
    rename_i p evs hres
    split
    · exact Or.inr (Or.inl rfl)
    · split
      · exact Or.inr (Or.inr (Or.inl rfl))
      · split
        rename_i r evs2 hsp
        refine Or.inr (Or.inr (Or.inr ?_))
        rw [hres, hsp]

/-- A second-revision invocation result is a configuration error, an input
error, a byte-resolution error, or the result of the submission-and-poll
phase on the resolved payload. -/
theorem callB_cases (env : RevB.Env) (input : ToolInput) :
    (RevB.call env input).1 = .err .configError ∨
    (RevB.call env input).1 = .err .inputError ∨
    (RevB.call env input).1 = .err .noBytes ∨
    (RevB.call env input).1 = (RevB.submitAndPoll env (RevB.resolve env input).1).1 := by
  unfold RevB.call
  split
  · exact Or.inl rfl
  · split
    rename_i p evs hres
    split
    · exact Or.inr (Or.inl rfl)
    · split
      · exact Or.inr (Or.inr (Or.inl rfl))
      · split
        rename_i r evs2 hsp
        refine Or.inr (Or.inr (Or.inr ?_))
        rw [hres, hsp]

/-- C4: whenever a poll (or the initial submission response, which the loop
inspects first) reports the `ProcessingFailed` status, the tool fails
immediately with the processing-failure error, performing no further status
query and no further sleep (the remaining event trace is empty), in both
revisions; at the invocation level a submission response already in that
state yields the processing-failure error with zero status queries. -/
theorem claim4_failed_terminates_immediately :
    (∀ (tm : Nat) (t : RevA.Task) (d : ℚ) (steps : List (Nat × Option RevA.Task)),
      t.Status = some "ProcessingFailed" → RevA.poll tm t d steps = (.failed, [])) ∧
    (∀ (tm : Nat) (t : RevB.Task) (d : ℚ) (steps : List (Nat × RevB.Task)),
      t.status = some "ProcessingFailed" → RevB.poll tm t d steps = (.failed, [])) ∧
    (∀ (env : RevA.Env) (p : Payload) (t : RevA.Task),
      RevA.parseTask env.submitResp = .ok t → t.Status = some "ProcessingFailed" →
      (RevA.submitAndPoll env p).1 = .err .processingFailed ∧
        queryCount (RevA.submitAndPoll env p).2 = 0) ∧
    (∀ (env : RevB.Env) (p : Payload) (t : RevB.Task),
      RevB.parseTask env.submitResp = .ok t → t.status = some "ProcessingFailed" →
      (RevB.submitAndPoll env p).1 = .err .processingFailed ∧
        queryCount (RevB.submitAndPoll env p).2 = 0) := by
  refine ⟨fun tm t d steps h => pollA_of_failed tm t d steps h,
          fun tm t d steps h => pollB_of_failed tm t d steps h, ?_, ?_⟩
  · intro env p t hp hs
    unfold RevA.submitAndPoll
    rw [hp]
    simp only
    rw [pollA_of_failed _ t 1500 env.steps hs]
    exact ⟨rfl, rfl⟩
  · intro env p t hp hs
    unfold RevB.submitAndPoll
    rw [hp]
    simp only
    rw [pollB_of_failed _ t 1500 env.steps hs]
    exact ⟨rfl, rfl⟩

/-- Witness for C4 at a concrete failed task and environment. -/
theorem claim4_witness :
    RevA.poll 360000 { Status := some "ProcessingFailed" } 1500
        [(10, some { Id := some "T1", Status := some "Submitted" })] = (.failed, []) ∧
    RevB.poll 3600000 { status := some "ProcessingFailed" } 1500
        [(10, { taskId := some "T1", status := some "Submitted" })] = (.failed, []) ∧
    (RevA.submitAndPoll
        { submitResp := some { Id := some "T1", Status := some "ProcessingFailed" } }
        {}).1 = .err .processingFailed :=
  ⟨claim4_failed_terminates_immediately.1 360000 _ 1500 _ rfl,
   claim4_failed_terminates_immediately.2.1 3600000 _ 1500 _ rfl,
   (claim4_failed_terminates_immediately.2.2.1
      { submitResp := some { Id := some "T1", Status := some "ProcessingFailed" } }
      {} { Id := some "T1", Status := some "ProcessingFailed" } rfl rfl).1⟩

/-- C6: with either service credential absent (or empty, hence falsy), both
revisions of `_call` fail at once with the configuration error and an empty
event trace: no network call, no registry lookup, no byte resolution, and —
the result being produced in one step — no retry. -/
theorem claim6_missing_credentials_config_error :
    (∀ (env : RevA.Env) (input : ToolInput),
      sTruthy env.appId = false ∨ sTruthy env.appPwd = false →
      RevA.call env input = (.err .configError, [])) ∧
    (∀ (env : RevB.Env) (input : ToolInput),
      sTruthy env.appId = false ∨ sTruthy env.appPwd = false →
      RevB.call env input = (.err .configError, [])) := by
  constructor
  · intro env input h
    unfold RevA.call
    rw [if_pos (by rcases h with h | h <;> simp [h])]
  · intro env input h
    unfold RevB.call
    rw [if_pos (by rcases h with h | h <;> simp [h])]

/-- Witness for C6 with one credential set and the other absent. -/
theorem claim6_witness :
    RevA.call { appId := some "id" } .nullInput = (.err .configError, []) ∧
    RevB.call { appPwd := some "pw" } .nullInput = (.err .configError, []) :=
  ⟨claim6_missing_credentials_config_error.1 { appId := some "id" } .nullInput
      (Or.inr rfl),
   claim6_missing_credentials_config_error.2 { appPwd := some "pw" } .nullInput
      (Or.inl rfl)⟩

/-- C8 counterexample: the claim maps every input other than a structured
object or a parseable JSON string to the empty request object, but the code
wraps an unparseable string as a filename field: on the bare string
`report.pdf` (a `JSON.parse` failure) normalization yields a payload whose
`filename` is that string, not the empty object. -/
theorem claim8_counterexample :
    normalize (.strInput "report.pdf" .failure) = { filename := some "report.pdf" } ∧
    normalize (.strInput "report.pdf" .failure) ≠ ({} : Payload) := by
  constructor
  · rfl
  · decide

/-- C8 (amended): normalization maps a structured object to itself, a JSON
string parsing to an object to that object, an unparseable string `s` to the
payload whose only set field is `filename := s`, and everything else — a
string parsing to `null` or to a non-object primitive, a `null` input, and a
non-string non-object input — to the empty request object; it runs before
any source resolution (resolution operates on its output). -/
theorem claim8_amended_normalization :
    (∀ p, normalize (.objInput p) = p) ∧
    (∀ s p, normalize (.strInput s (.objVal p)) = p) ∧
    (∀ s, normalize (.strInput s .nullVal) = ({} : Payload)) ∧
    (∀ s, normalize (.strInput s .primVal) = ({} : Payload)) ∧
    (∀ s, normalize (.strInput s .failure) = { filename := some s }) ∧
    normalize .nullInput = ({} : Payload) ∧
    normalize .otherInput = ({} : Payload) ∧
    (∀ (env : RevA.Env) (input : ToolInput),
      (RevA.resolve env input).1 =
        (RevA.registryFallback env (RevA.fileIdFallback env (normalize input)).1).1) ∧
    (∀ (env : RevB.Env) (input : ToolInput),
      (RevB.resolve env input).1 = (RevB.registryFallback env (normalize input)).1) :=
  ⟨fun _ => rfl, fun _ _ => rfl, fun _ => rfl, fun _ => rfl, fun _ => rfl, rfl, rfl,
   fun _ _ => rfl, fun _ _ => rfl⟩

/-- C10: in both revisions the poll loop exits successfully only on a task
whose status is Completed carrying a truthy result locator (`resultUrl`,
resp. first element of `resultUrls`); in the second revision a Completed
status with `resultUrls` absent raises the TypeError instead of succeeding,
and in neither revision does a Completed status without a locator break the
loop. -/
theorem claim10_success_needs_completed_and_locator :
    (∀ (steps : List (Nat × Option RevA.Task)) (tm : Nat) (t : RevA.Task) (d : ℚ)
        (tEnd : RevA.Task), (RevA.poll tm t d steps).1 = .ok tEnd →
        tEnd.Status = some "Completed" ∧ sTruthy tEnd.resultUrl = true) ∧
    (∀ (steps : List (Nat × RevB.Task)) (tm : Nat) (t : RevB.Task) (d : ℚ)
        (tEnd : RevB.Task), (RevB.poll tm t d steps).1 = .ok tEnd →
        tEnd.status = some "Completed" ∧
          ∃ urls, tEnd.resultUrls = some urls ∧ sTruthy urls.head? = true) ∧
    (∀ (tm : Nat) (t : RevB.Task) (d : ℚ) (steps : List (Nat × RevB.Task)),
        t.status = some "Completed" → t.resultUrls = none →
        RevB.poll tm t d steps = (.typeErr, [])) := by
  refine ⟨pollA_ok_completed, pollB_ok_completed, ?_⟩
  intro tm t d steps h1 h2
  have hc : RevB.checkCompleted t = .typeErr := by
    unfold RevB.checkCompleted
    rw [if_pos h1, h2]
  cases steps with
  | nil => simp [RevB.poll, hc]
  | cons s rest => simp [RevB.poll, hc]

/-- Witness for C10 at a concrete immediately-completed run and a concrete
Completed-without-locator response. -/
theorem claim10_witness :
    ((RevA.Task.mk (some "T1") (some "Completed") (some "https://r")).Status =
        some "Completed" ∧
      sTruthy (RevA.Task.mk (some "T1") (some "Completed") (some "https://r")).resultUrl =
        true) ∧
    RevB.poll 3600000 { taskId := some "T1", status := some "Completed" } 1500 [] =
      (.typeErr, []) :=
  ⟨claim10_success_needs_completed_and_locator.1 [] 360000
      { Id := some "T1", Status := some "Completed", resultUrl := some "https://r" } 1500
      { Id := some "T1", Status := some "Completed", resultUrl := some "https://r" }
      (by decide),
   claim10_success_needs_completed_and_locator.2.2 3600000
      { taskId := some "T1", status := some "Completed" } 1500 [] rfl rfl⟩

/-- C1: with credentials configured, whenever after normalization and all
fallbacks the resolved payload carries no content source (no truthy base64,
download URL, or — first revision only — local path) and no caller identity
is known, both revisions fail with the input error and never emit the
submission event. -/
theorem claim1_no_source_no_identity_input_error :
    (∀ (env : RevA.Env) (input : ToolInput),
      sTruthy env.appId = true → sTruthy env.appPwd = true →
      sTruthy env.userId = false →
      sTruthy (RevA.resolve env input).1.base64 = false →
      sTruthy (RevA.resolve env input).1.fileUrl = false →
      sTruthy (RevA.resolve env input).1.filePath = false →
      (RevA.call env input).1 = .err .inputError ∧
        Event.submitJob ∉ (RevA.call env input).2) ∧
    (∀ (env : RevB.Env) (input : ToolInput),
      sTruthy env.appId = true → sTruthy env.appPwd = true →
      sTruthy env.userId = false →
      sTruthy (RevB.resolve env input).1.base64 = false →
      sTruthy (RevB.resolve env input).1.fileUrl = false →
      (RevB.call env input).1 = .err .inputError ∧
        Event.submitJob ∉ (RevB.call env input).2) := by
  constructor
  · intro env input hid hpwd _ hb hu hp
    have hcall : RevA.call env input = (.err .inputError, (RevA.resolve env input).2) := by
      unfold RevA.call
      rcases hres : RevA.resolve env input with ⟨p, evs⟩
      rw [hres] at hb hu hp
      rw [if_neg (by simp [hid, hpwd])]
      simp only at hb hu hp ⊢
      rw [if_pos (by simp [hb, hu, hp])]
    rw [hcall]
    refine ⟨rfl, fun hmem => ?_⟩
    rcases resolveA_events env input Event.submitJob hmem with h | h <;> simp at h
  · intro env input hid hpwd _ hb hu
    have hcall : RevB.call env input = (.err .inputError, (RevB.resolve env input).2) := by
      unfold RevB.call
      rcases hres : RevB.resolve env input with ⟨p, evs⟩
      rw [hres] at hb hu
      rw [if_neg (by simp [hid, hpwd])]
      simp only at hb hu ⊢
      rw [if_pos (by simp [hb, hu])]
    rw [hcall]
    refine ⟨rfl, fun hmem => ?_⟩
    have := resolveB_events env input Event.submitJob hmem
    simp at this

/-- Witness for C1: empty input, no caller identity, credentials present. -/
theorem claim1_witness :
    ((RevA.call { appId := some "id", appPwd := some "pw" } .nullInput).1 =
        .err .inputError ∧
      Event.submitJob ∉ (RevA.call { appId := some "id", appPwd := some "pw" } .nullInput).2) ∧
    ((RevB.call { appId := some "id", appPwd := some "pw" } .nullInput).1 =
        .err .inputError ∧
      Event.submitJob ∉ (RevB.call { appId := some "id", appPwd := some "pw" } .nullInput).2) :=
  ⟨claim1_no_source_no_identity_input_error.1
      { appId := some "id", appPwd := some "pw" } .nullInput
      rfl rfl rfl rfl rfl rfl,
   claim1_no_source_no_identity_input_error.2
      { appId := some "id", appPwd := some "pw" } .nullInput
      rfl rfl rfl rfl rfl⟩

/-- C5: the output filename of a successful invocation is the validated
filename of the resolved payload — preserved verbatim whenever it ends in
`.docx`, and replaced by the default `converted.docx` otherwise (including
when absent), in both revisions. -/
theorem claim5_filename_validation :
    (∀ s : String, jsEndsWith s ".docx" = true → outFilename (some s) = s) ∧
    (∀ s : String, jsEndsWith s ".docx" = false →
      outFilename (some s) = "converted.docx") ∧
    outFilename none = "converted.docx" ∧
    (∀ (env : RevA.Env) (input : ToolInput) (out : CallOutput),
      (RevA.call env input).1 = .ok out →
      out.filename = outFilename (RevA.resolve env input).1.filename) ∧
    (∀ (env : RevB.Env) (input : ToolInput) (out : CallOutput),
      (RevB.call env input).1 = .ok out →
      out.filename = outFilename (RevB.resolve env input).1.filename) := by
  refine ⟨?_, ?_, rfl, ?_, ?_⟩
  · intro s h
    have hne : (s != "") = true := by
      cases hse : s == "" with
      | true =>
        rw [eq_of_beq hse] at h
        exact absurd h (by decide)
      | false => simp [bne, hse]
    unfold outFilename
    simp only [hne, h, Bool.and_self, if_pos]
  · intro s h
    unfold outFilename
    simp [h]
  · intro env input out h
    rcases callA_cases env input with hc | hc | hc | hc <;> rw [h] at hc
    · simp at hc
    · simp at hc
    · simp at hc
    · exact submitAndPollA_ok_filename env _ out hc.symm
  · intro env input out h
    rcases callB_cases env input with hc | hc | hc | hc <;> rw [h] at hc
    · simp at hc
    · simp at hc
    · simp at hc
    · exact submitAndPollB_ok_filename env _ out hc.symm

/-- Witness for C5 at concrete filenames and a concrete successful
invocation. -/
theorem claim5_witness :
    outFilename (some "scan.docx") = "scan.docx" ∧
    outFilename (some "scan.pdf") = "converted.docx" ∧
    (CallOutput.mk "converted.docx" "https://r").filename =
      outFilename (RevA.resolve
        { appId := some "id", appPwd := some "pw",
          submitResp := some { Id := some "T1", Status := some "Completed",
                               resultUrl := some "https://r" } }
        (.objInput { base64 := some "JVBERi0" })).1.filename :=
  ⟨claim5_filename_validation.1 "scan.docx" (by decide),
   claim5_filename_validation.2.1 "scan.pdf" (by decide),
   claim5_filename_validation.2.2.2.1
     { appId := some "id", appPwd := some "pw",
       submitResp := some { Id := some "T1", Status := some "Completed",
                            resultUrl := some "https://r" } }
     (.objInput { base64 := some "JVBERi0" })
     (CallOutput.mk "converted.docx" "https://r") (by decide)⟩

/-- C3: in every poll run of either revision the slept delays are a prefix
of the backoff chain from 1500 ms, along which each successive delay is
`nextDelay` of the previous (multiplicative growth by 1.5 capped at 7000),
the chain is non-decreasing, and no delay exceeds the 7000 ms ceiling; for
the mocked status sequence Submitted (the submission response), Submitted,
Completed-with-result, the loop performs exactly two status queries — one
per status after the initial one, which the submission response supplies —
before exiting successfully, with slept delays 1500 then 2250. -/
theorem claim3_backoff_and_query_count :
    (∀ (steps : List (Nat × Option RevA.Task)) (tm : Nat) (t : RevA.Task),
      ∃ n, sleptDelays (RevA.poll tm t 1500 steps).2 = delaySeq 1500 n) ∧
    (∀ (steps : List (Nat × RevB.Task)) (tm : Nat) (t : RevB.Task),
      ∃ n, sleptDelays (RevB.poll tm t 1500 steps).2 = delaySeq 1500 n) ∧
    (∀ n : Nat,
      List.Chain' (fun a b => b = nextDelay a) (delaySeq 1500 n) ∧
      List.Chain' (· ≤ ·) (delaySeq 1500 n) ∧
      ∀ x ∈ delaySeq 1500 n, x ≤ 7000) ∧
    (RevA.poll 360000 { Id := some "T1", Status := some "Submitted" } 1500
        [(1500, some { Id := some "T1", Status := some "Submitted" }),
         (3750, some { Id := some "T1", Status := some "Completed",
                       resultUrl := some "https://r" })] =
      (.ok { Id := some "T1", Status := some "Completed", resultUrl := some "https://r" },
       [.pollSleep 1500, .pollQuery, .pollSleep 2250, .pollQuery]) ∧
     queryCount (RevA.poll 360000 { Id := some "T1", Status := some "Submitted" } 1500
        [(1500, some { Id := some "T1", Status := some "Submitted" }),
         (3750, some { Id := some "T1", Status := some "Completed",
                       resultUrl := some "https://r" })]).2 = 2) ∧
    (RevB.poll 3600000 { taskId := some "T1", status := some "Submitted" } 1500
        [(1500, { taskId := some "T1", status := some "Submitted" }),
         (3750, { taskId := some "T1", status := some "Completed",
                  resultUrls := some ["https://r"] })] =
      (.ok { taskId := some "T1", status := some "Completed",
             resultUrls := some ["https://r"] },
       [.pollSleep 1500, .pollQuery, .pollSleep 2250, .pollQuery]) ∧
     queryCount (RevB.poll 3600000 { taskId := some "T1", status := some "Submitted" } 1500
        [(1500, { taskId := some "T1", status := some "Submitted" }),
         (3750, { taskId := some "T1", status := some "Completed",
                  resultUrls := some ["https://r"] })]).2 = 2) := by
  have hA : RevA.poll 360000 { Id := some "T1", Status := some "Submitted" } 1500
      [(1500, some { Id := some "T1", Status := some "Submitted" }),
       (3750, some { Id := some "T1", Status := some "Completed",
                     resultUrl := some "https://r" })] =
      (.ok { Id := some "T1", Status := some "Completed", resultUrl := some "https://r" },
       [.pollSleep 1500, .pollQuery, .pollSleep 2250, .pollQuery]) := by
    norm_num [RevA.poll, RevA.parseTask, nextDelay, sTruthy]
    decide
  have hB : RevB.poll 3600000 { taskId := some "T1", status := some "Submitted" } 1500
      [(1500, { taskId := some "T1", status := some "Submitted" }),
       (3750, { taskId := some "T1", status := some "Completed",
                resultUrls := some ["https://r"] })] =
      (.ok { taskId := some "T1", status := some "Completed",
             resultUrls := some ["https://r"] },
       [.pollSleep 1500, .pollQuery, .pollSleep 2250, .pollQuery]) := by
    norm_num [RevB.poll, RevB.checkCompleted, nextDelay, sTruthy]
    decide
  refine ⟨fun steps tm t => pollA_sleeps steps tm t 1500,
          fun steps tm t => pollB_sleeps steps tm t 1500,
          fun n => ⟨delaySeq_chain_growth n 1500,
                    delaySeq_chain_le n 1500 (by norm_num) (by norm_num),
                    delaySeq_le_ceiling n 1500 (by norm_num)⟩,
          ⟨hA, by rw [hA]; rfl⟩, ⟨hB, by rw [hB]; rfl⟩⟩

/-- Witness for C3 at a concrete poll run and a concrete chain element. -/
theorem claim3_witness :
    (∃ n, sleptDelays (RevA.poll 360000 { Id := some "T1", Status := some "Submitted" }
        1500 []).2 = delaySeq 1500 n) ∧
    (1500 : ℚ) ≤ 7000 :=
  ⟨claim3_backoff_and_query_count.1 [] 360000 { Id := some "T1", Status := some "Submitted" },
   (claim3_backoff_and_query_count.2.2.1 1).2.2 1500 (by simp [delaySeq])⟩

/-- C2 counterexample: the claim takes the configured timeout from the
request's `timeoutMs` field when present, but the second revision ignores
that field and always uses one hour: with `timeoutMs := 1000` in the request
and 2000 ms elapsed at the only poll check (beyond the requested timeout,
short of one hour) on a non-terminal status, the loop does not fail with the
timeout error — it sleeps, queries again, and keeps polling. -/
theorem claim2_counterexample :
    RevB.call
        { appId := some "id", appPwd := some "pw",
          submitResp := some { taskId := some "T1", status := some "Submitted" },
          steps := [(2000, { taskId := some "T1", status := some "Submitted" })] }
        (.objInput { base64 := some "JVBERi0", timeoutMs := some 1000 }) =
      (.hung, [.fetchBytes, .submitJob, .pollSleep 1500, .pollQuery]) ∧
    (RevB.call
        { appId := some "id", appPwd := some "pw",
          submitResp := some { taskId := some "T1", status := some "Submitted" },
          steps := [(2000, { taskId := some "T1", status := some "Submitted" })] }
        (.objInput { base64 := some "JVBERi0", timeoutMs := some 1000 })).1 ≠
      .err .timeout := by
  have h : RevB.call
      { appId := some "id", appPwd := some "pw",
        submitResp := some { taskId := some "T1", status := some "Submitted" },
        steps := [(2000, { taskId := some "T1", status := some "Submitted" })] }
      (.objInput { base64 := some "JVBERi0", timeoutMs := some 1000 }) =
      (.hung, [.fetchBytes, .submitJob, .pollSleep 1500, .pollQuery]) := by
    norm_num [RevB.call, RevB.resolve, RevB.registryFallback, normalize, sTruthy,
      RevB.resolvePdfBytes, RevB.submitAndPoll, RevB.parseTask, RevB.timeoutBudget,
      RevB.poll, RevB.checkCompleted, nextDelay]
    decide
  exact ⟨h, by rw [h]; decide⟩

/-- C2 (amended): in the first revision the timeout budget is the request's
`timeoutMs` when present and nonzero (a falsy zero selects the default) and
360000 ms — six minutes — otherwise; in the second revision the budget is
the fixed 3600000 ms — one hour — and the request's field is ignored; in
both revisions, once the elapsed time at a poll check exceeds the budget
while every observed status is non-terminal, the loop fails with the timeout
error even though the service never returned a terminal status. -/
theorem claim2_amended_timeout_behavior :
    (∀ (steps : List (Nat × Option RevA.Task)) (tm : Nat) (t : RevA.Task) (d : ℚ),
      RevA.nonterminal t →
      (∀ p ∈ steps, ∃ t2, RevA.parseTask p.2 = .ok t2 ∧ RevA.nonterminal t2) →
      (∃ p ∈ steps, tm < p.1) →
      (RevA.poll tm t d steps).1 = .timeout) ∧
    (∀ (steps : List (Nat × RevB.Task)) (tm : Nat) (t : RevB.Task) (d : ℚ),
      RevB.nonterminal t →
      (∀ p ∈ steps, RevB.nonterminal p.2) →
      (∃ p ∈ steps, tm < p.1) →
      (RevB.poll tm t d steps).1 = .timeout) ∧
    (∀ (p : Payload) (n : Nat), p.timeoutMs = some n → n ≠ 0 →
      RevA.timeoutBudget p = n) ∧
    (∀ p : Payload, p.timeoutMs = none → RevA.timeoutBudget p = 360000) ∧
    RevB.timeoutBudget = 3600000 := by
  refine ⟨pollA_timeout, pollB_timeout, ?_, ?_, rfl⟩
  · intro p n h hn
    unfold RevA.timeoutBudget
    rw [h]
    simp [hn]
  · intro p h
    unfold RevA.timeoutBudget
    rw [h]

/-- Witness for C2 (amended) at a concrete over-budget run. -/
theorem claim2_witness :
    (RevA.poll 500 { Id := some "T1", Status := some "Submitted" } 1500
        [(1000, some { Id := some "T1", Status := some "Submitted" })]).1 = .timeout ∧
    RevA.timeoutBudget { timeoutMs := some 1000 } = 1000 :=
  ⟨claim2_amended_timeout_behavior.1
      [(1000, some { Id := some "T1", Status := some "Submitted" })] 500
      { Id := some "T1", Status := some "Submitted" } 1500
      (by constructor <;> decide)
      (by
        intro p hp
        rw [List.mem_singleton] at hp
        subst hp
        exact ⟨{ Id := some "T1", Status := some "Submitted" }, rfl,
               by constructor <;> decide⟩)
      ⟨(1000, some { Id := some "T1", Status := some "Submitted" }),
        List.mem_singleton.mpr rfl, by norm_num⟩,
   claim2_amended_timeout_behavior.2.2.1 { timeoutMs := some 1000 } 1000 rfl
      (by norm_num)⟩

/-- C7 counterexample: the claim requires every status-poll response lacking
the task identifier to fail with the protocol error, but the second revision
assigns the raw status-query response to `task` without re-running
`parseTask`: with two successive poll responses carrying no `taskId`, the
tool proceeds — it sleeps and issues a second status query after the first
identifier-less response — and ends still polling, not with the
malformed-response error. -/
theorem claim7_counterexample :
    RevB.call
        { appId := some "id", appPwd := some "pw",
          submitResp := some { taskId := some "T1", status := some "Submitted" },
          steps := [(1000, { status := some "Submitted" }),
                    (2000, { status := some "Submitted" })] }
        (.objInput { base64 := some "JVBERi0" }) =
      (.hung, [.fetchBytes, .submitJob, .pollSleep 1500, .pollQuery,
               .pollSleep 2250, .pollQuery]) ∧
    (RevB.call
        { appId := some "id", appPwd := some "pw",
          submitResp := some { taskId := some "T1", status := some "Submitted" },
          steps := [(1000, { status := some "Submitted" }),
                    (2000, { status := some "Submitted" })] }
        (.objInput { base64 := some "JVBERi0" })).1 ≠ .err .malformed := by
  have h : RevB.call
      { appId := some "id", appPwd := some "pw",
        submitResp := some { taskId := some "T1", status := some "Submitted" },
        steps := [(1000, { status := some "Submitted" }),
                  (2000, { status := some "Submitted" })] }
      (.objInput { base64 := some "JVBERi0" }) =
      (.hung, [.fetchBytes, .submitJob, .pollSleep 1500, .pollQuery,
               .pollSleep 2250, .pollQuery]) := by
    norm_num [RevB.call, RevB.resolve, RevB.registryFallback, normalize, sTruthy,
      RevB.resolvePdfBytes, RevB.submitAndPoll, RevB.parseTask, RevB.timeoutBudget,
      RevB.poll, RevB.checkCompleted, nextDelay]
    decide
  exact ⟨h, by rw [h]; decide⟩

/-- C7 (amended): a submission response lacking a truthy task identifier
fails with the protocol (malformed-response) error in both revisions, and in
the first revision every status-poll response is re-validated the same way —
a response failing `parseTask` aborts the loop with the malformed error; the
second revision does not re-validate poll responses. -/
theorem claim7_amended_identifier_checks :
    (∀ (tm : Nat) (t : RevA.Task) (d : ℚ) (e : Nat) (resp : Option RevA.Task)
        (rest : List (Nat × Option RevA.Task)),
      RevA.nonterminal t → ¬tm < e → RevA.parseTask resp = .error () →
      (RevA.poll tm t d ((e, resp) :: rest)).1 = .malformed) ∧
    (∀ (env : RevA.Env) (p : Payload), RevA.parseTask env.submitResp = .error () →
      (RevA.submitAndPoll env p).1 = .err .malformed) ∧
    (∀ (env : RevB.Env) (p : Payload), RevB.parseTask env.submitResp = .error () →
      (RevB.submitAndPoll env p).1 = .err .malformed) := by
  refine ⟨?_, ?_, ?_⟩
  · intro tm t d e resp rest hnt hte hparse
    simp only [RevA.poll]
    rw [if_neg hnt.1, if_neg hnt.2, if_neg hte, hparse]
  · intro env p hparse
    unfold RevA.submitAndPoll
    rw [hparse]
  · intro env p hparse
    unfold RevB.submitAndPoll
    rw [hparse]

/-- Witness for C7 (amended) at a concrete identifier-less response. -/
theorem claim7_witness :
    (RevA.poll 100 { Id := some "T1", Status := some "Submitted" } 1500
        [(0, some { Status := some "Submitted" })]).1 = .malformed ∧
    (RevA.submitAndPoll { submitResp := none } {}).1 = .err .malformed ∧
    (RevB.submitAndPoll { submitResp := some { status := some "Submitted" } } {}).1 =
      .err .malformed :=
  ⟨claim7_amended_identifier_checks.1 100 { Id := some "T1", Status := some "Submitted" }
      1500 0 (some { Status := some "Submitted" }) []
      (by constructor <;> decide) (by norm_num) rfl,
   claim7_amended_identifier_checks.2.1 { submitResp := none } {} rfl,
   claim7_amended_identifier_checks.2.2
      { submitResp := some { status := some "Submitted" } } {} rfl⟩

/-- C9: with the host registry modelled from the spec as returning the
matching records sorted by descending `updatedAt`, the record a fallback
selects — the first element of the registry result, a deterministic function
of that result — matches the filter and is most recently updated among all
matching records; and in both revisions the registry fallback, when taken,
sets the source URL from precisely that first record (in the second revision
when no fresh signed URL was minted). -/
theorem claim9_latest_file_selection :
    (∀ (registry : List FileRecord) (flt : FileRecord → Bool) (x : FileRecord),
      (getFiles registry flt).head? = some x →
      flt x = true ∧ x ∈ registry ∧
        ∀ y ∈ registry, flt y = true → y.updatedAt ≤ x.updatedAt) ∧
    (∀ (env : RevA.Env) (p : Payload) (files : List FileRecord) (latest : FileRecord),
      env.regFiles = some files → files.head? = some latest →
      sTruthy p.base64 = false → sTruthy p.fileUrl = false →
      sTruthy p.filePath = false → sTruthy env.userId = true →
      sTruthy latest.filepath = true →
      (RevA.registryFallback env p).1.fileUrl = latest.filepath) ∧
    (∀ (env : RevB.Env) (p : Payload) (files : List FileRecord) (latest : FileRecord),
      env.regFiles = some files → files.head? = some latest →
      sTruthy p.base64 = false → sTruthy p.fileUrl = false →
      sTruthy env.userId = true → sTruthy latest.filepath = true →
      env.freshUrl = none →
      (RevB.registryFallback env p).1.fileUrl = latest.filepath) := by
  refine ⟨?_, ?_, ?_⟩
  · intro registry flt x hx
    have hsorted : List.Sorted laterFile (getFiles registry flt) :=
      List.sorted_insertionSort laterFile (registry.filter flt)
    cases hl : getFiles registry flt with
    | nil => rw [hl] at hx; simp at hx
    | cons a as =>
      rw [hl] at hx
      simp at hx
      subst hx
      rw [hl] at hsorted
      have hma : a ∈ registry.filter flt := by
        have : a ∈ getFiles registry flt := by rw [hl]; exact List.mem_cons_self a as
        unfold getFiles at this
        simpa using this
      rw [List.mem_filter] at hma
      refine ⟨hma.2, hma.1, ?_⟩
      intro y hy hfy
      have hys : y ∈ getFiles registry flt := by
        unfold getFiles
        simpa using List.mem_filter.mpr ⟨hy, hfy⟩
      rw [hl] at hys
      rcases List.mem_cons.mp hys with h | h
      · rw [h]
      · exact List.rel_of_sorted_cons hsorted y h
  · intro env p files latest hreg hhead hb hu hp huser hpath
    unfold RevA.registryFallback
    rw [if_pos (by simp [hb, hu, hp, huser]), hreg]
    simp only
    rw [hhead]
    simp only
    rw [if_pos hpath]
  · intro env p files latest hreg hhead hb hu huser hpath hfresh
    unfold RevB.registryFallback
    rw [if_pos (by simp [hb, hu, huser]), hreg]
    simp only
    rw [hhead]
    simp only
    rw [if_pos hpath, hfresh]

/-- Witness for C9 on a concrete two-record registry. -/
theorem claim9_witness :
    ((fun f => f.type == "application/pdf")
        (FileRecord.mk "u" "application/pdf" (some "https://h/b.pdf") (some "b.pdf") 9) =
        true ∧
      FileRecord.mk "u" "application/pdf" (some "https://h/b.pdf") (some "b.pdf") 9 ∈
        [FileRecord.mk "u" "application/pdf" (some "https://h/a.pdf") (some "a.pdf") 5,
         FileRecord.mk "u" "application/pdf" (some "https://h/b.pdf") (some "b.pdf") 9] ∧
      ∀ y ∈ [FileRecord.mk "u" "application/pdf" (some "https://h/a.pdf") (some "a.pdf") 5,
             FileRecord.mk "u" "application/pdf" (some "https://h/b.pdf") (some "b.pdf") 9],
        (fun f => f.type == "application/pdf") y = true →
        y.updatedAt ≤
          (FileRecord.mk "u" "application/pdf" (some "https://h/b.pdf") (some "b.pdf")
            9).updatedAt) ∧
    (RevA.registryFallback
        { appId := some "id", appPwd := some "pw", userId := some "u",
          regFiles := some [FileRecord.mk "u" "application/pdf"
            (some "https://h/b.pdf") (some "b.pdf") 9] }
        {}).1.fileUrl = some "https://h/b.pdf" :=
  ⟨claim9_latest_file_selection.1
      [FileRecord.mk "u" "application/pdf" (some "https://h/a.pdf") (some "a.pdf") 5,
       FileRecord.mk "u" "application/pdf" (some "https://h/b.pdf") (some "b.pdf") 9]
      (fun f => f.type == "application/pdf")
      (FileRecord.mk "u" "application/pdf" (some "https://h/b.pdf") (some "b.pdf") 9)
      (by decide),
   claim9_latest_file_selection.2.1
      { appId := some "id", appPwd := some "pw", userId := some "u",
        regFiles := some [FileRecord.mk "u" "application/pdf"
          (some "https://h/b.pdf") (some "b.pdf") 9] }
      {}
      [FileRecord.mk "u" "application/pdf" (some "https://h/b.pdf") (some "b.pdf") 9]
      (FileRecord.mk "u" "application/pdf" (some "https://h/b.pdf") (some "b.pdf") 9)
      rfl rfl rfl rfl rfl rfl rfl⟩

end AbbyyTool
